import Mathlib

/-!
Shallow embedding of the audit/safety core of `agent-workflow-core`:
the hash-chained audit ledger (`src/unnamed/part_000`, class `AuditLogService`)
and the rollback governor (`src/crypto.ts`, class `RollbackService`),
together with the hashing helpers of `src/crypto.ts` and the zod schemas of
`src/types.ts` that they invoke.  JavaScript numbers are modelled as rationals
for rates/thresholds and as naturals for millisecond epoch timestamps and
counters; fallible operations return `Except`.
-/

/-- Joins a list of strings with a separator, modelling JavaScript
`Array.prototype.join(sep)`. -/
def joinWith (sep : String) : List String → String
  | [] => ""
  | [x] => x
  | x :: y :: ys => x ++ sep ++ joinWith sep (y :: ys)

/-- Modelled from the spec: the Hash Engine leaf (`CryptoJS.SHA256`, an external
library, is not part of this repository).  The spec requires a deterministic
digest; tamper evidence idealises it as collision-free, so it is modelled as an
injective tagging function on the serialized payload. -/
def sha256 (s : String) : String := "sha256:" ++ s

/-- Modelled from the spec: ISO-8601 rendering of a timestamp
(`Date.prototype.toISOString`, a JavaScript runtime primitive).  Only
determinism and injectivity of the rendering matter to the core, so the
millisecond epoch value is rendered injectively. -/
def toISOString (t : Nat) : String := "ISO-" ++ toString t

/-- `createInitialHash` from `src/crypto.ts` lines 116-118: the genesis value of
the chain, derived from the construction-time clock (`Date.now()`, passed here
as the explicit argument `now`). -/
def createInitialHash (now : Nat) : String :=
  sha256 ("AGENT_PIPELINE_VERSIONING_INITIAL_HASH_" ++ toString now)

/-- `createAuditHash` from `src/crypto.ts` lines 132-147: joins the hashed
fields and the previous hash (or the empty string when it is absent) with
the pipe separator and digests the payload.  `detailsJson` stands for
`JSON.stringify(logData.details)`; details payloads are modelled throughout by
their JSON serialization. -/
def createAuditHash (id action actor target tsIso detailsJson : String)
    (previousHash : Option String) : String :=
  sha256 (joinWith "|" [id, action, actor, target, tsIso, detailsJson,
    previousHash.getD ""])

/-- The `targetType` enum of `AuditLogSchema` in `src/types.ts` line 127. -/
inductive TargetType where
  | artifact
  | commit
  | branch
  | rollback
  | environment
deriving DecidableEq, Repr

/-- String form of a `TargetType`, as compared and exported by the source. -/
def TargetType.str : TargetType → String
  | .artifact => "artifact"
  | .commit => "commit"
  | .branch => "branch"
  | .rollback => "rollback"
  | .environment => "environment"

/-- The stored `AuditLog` record of `src/types.ts` lines 122-135.  `details`
is modelled by its JSON serialization; `previousHash` is optional in the
schema (`z.string().optional()`), which is what `verifyIntegrity` exploits. -/
structure AuditLog where
  id : String
  action : String
  actor : String
  target : String
  targetType : TargetType
  timestamp : Nat
  details : String
  hash : String
  previousHash : Option String
  ipAddress : Option String
  userAgent : Option String
deriving DecidableEq, Repr

/-- The caller-facing `AuditLogEntry` interface of `src/unnamed/part_000`
lines 12-20. -/
structure AuditLogEntryInput where
  action : String
  actor : String
  target : String
  targetType : TargetType
  details : Option String
  ipAddress : Option String := none
  userAgent : Option String := none
deriving DecidableEq, Repr

/-- One hexadecimal digit, as accepted by the zod uuid pattern. -/
def isHexDigit (c : Char) : Bool :=
  c.isDigit || (('a' ≤ c) && (c ≤ 'f')) || (('A' ≤ c) && (c ≤ 'F'))

/-- Consumes exactly `n` hexadecimal digits from the front of a character
list, returning the remainder. -/
def hexRun : Nat → List Char → Option (List Char)
  | 0, cs => some cs
  | _ + 1, [] => none
  | n + 1, c :: cs => if isHexDigit c then hexRun n cs else none

/-- Consumes one dash. -/
def expectDash : List Char → Option (List Char)
  | '-' :: cs => some cs
  | _ => none

/-- Modelled from the spec: `z.string().uuid()` of the zod library (external
to this repository) accepts the 8-4-4-4-12 hexadecimal uuid shape. -/
def isUuid (s : String) : Bool :=
  (do
    let cs ← hexRun 8 s.toList
    let cs ← expectDash cs
    let cs ← hexRun 4 cs
    let cs ← expectDash cs
    let cs ← hexRun 4 cs
    let cs ← expectDash cs
    let cs ← hexRun 4 cs
    let cs ← expectDash cs
    let cs ← hexRun 12 cs
    if cs.isEmpty then some () else none).isSome

/-- `AuditLogSchema.safeParse` of `src/types.ts` lines 122-135, restricted to
the data actually reaching it from `AuditLogService.log`: the enum, date and
string fields are enforced by the embedding types, so the only residual check
is the uuid shape of `id`. -/
def validateAuditLog (a : AuditLog) : Bool := isUuid a.id

/-- The `AuditLogService` state of `src/unnamed/part_000` lines 22-30: the
entry vector and the cached tail hash.  The `config` field only feeds the
retention cutoff computation, which is passed explicitly to
`archiveOldLogs`. -/
structure AuditLogService where
  logs : List AuditLog
  lastHash : String
deriving DecidableEq, Repr

/-- The constructor of `AuditLogService` (lines 27-30): empty log vector,
tail hash set to the genesis value derived from the construction time. -/
def AuditLogService.init (constructedAt : Nat) : AuditLogService :=
  { logs := [], lastHash := createInitialHash constructedAt }

/-- `AuditLogService.log` of `src/unnamed/part_000` lines 32-70.  The
generated `uuidv4()` and `new Date()` are passed explicitly as `id` and
`now`.  Failure of `safeParse` throws, leaving the service unchanged. -/
def AuditLogService.log (s : AuditLogService) (entry : AuditLogEntryInput)
    (id : String) (now : Nat) : Except String (AuditLogService × AuditLog) :=
  let detailsJson := entry.details.getD "\x7b\x7d"
  let hash := createAuditHash id entry.action entry.actor entry.target
    (toISOString now) detailsJson (some s.lastHash)
  let auditLog : AuditLog :=
    { id := id
      action := entry.action
      actor := entry.actor
      target := entry.target
      targetType := entry.targetType
      timestamp := now
      details := detailsJson
      hash := hash
      previousHash := some s.lastHash
      ipAddress := entry.ipAddress
      userAgent := entry.userAgent }
  if validateAuditLog auditLog then
    .ok ({ s with logs := s.logs ++ [auditLog], lastHash := hash }, auditLog)
  else
    .error "Invalid audit log"

/-- One append input: the entry, the generated uuid and the clock reading. -/
abbrev LogInput : Type := AuditLogEntryInput × String × Nat

/-- Runs a sequence of `log` calls, stopping at the first failure. -/
def logMany (s : AuditLogService) : List LogInput → Except String AuditLogService
  | [] => .ok s
  | (e, id, t) :: rest =>
    match s.log e id t with
    | .error m => .error m
    | .ok (s', _) => logMany s' rest

/-- Result record of `verifyIntegrity`. -/
structure VerifyResult where
  valid : Bool
  brokenAt : Option Nat
deriving DecidableEq, Repr

/-- The verification walk of `AuditLogService.verifyIntegrity`
(`src/unnamed/part_000` lines 128-153): at index `i` the expected previous
hash is the preceding entry's hash, or `undefined` (`none`) at index 0; a
mismatch of the stored `previousHash`, or of the stored `hash` against the
recomputed digest, reports index `i`. -/
def verifyFrom (expected : Option String) (i : Nat) : List AuditLog → Option Nat
  | [] => none
  | l :: ls =>
    if l.previousHash ≠ expected then some i
    else if l.hash ≠ createAuditHash l.id l.action l.actor l.target
        (toISOString l.timestamp) l.details l.previousHash then some i
    else verifyFrom (some l.hash) (i + 1) ls

/-- `AuditLogService.verifyIntegrity` of `src/unnamed/part_000`
lines 128-153. -/
def AuditLogService.verifyIntegrity (s : AuditLogService) : VerifyResult :=
  match verifyFrom none 0 s.logs with
  | some i => { valid := false, brokenAt := some i }
  | none => { valid := true, brokenAt := none }

/-- `AuditLogService.archiveOldLogs` of `src/unnamed/part_000` lines 186-199.
The source computes `cutoffDate` from the wall clock and
`config.retentionYears` via calendar arithmetic (`Date.setFullYear`), passed
here as the explicit `cutoffDate`.  Entries strictly older are dropped from
the service; only their count is returned, and `lastHash` is untouched. -/
def AuditLogService.archiveOldLogs (s : AuditLogService) (cutoffDate : Nat) :
    AuditLogService × Nat × Nat :=
  let toArchive := s.logs.filter (fun l => l.timestamp < cutoffDate)
  let toRetain := s.logs.filter (fun l => decide (cutoffDate ≤ l.timestamp))
  ({ s with logs := toRetain }, toArchive.length, toRetain.length)

/-- The options record of `AuditLogService.getLogs`
(`src/unnamed/part_000` lines 72-81). -/
structure GetLogsOptions where
  actor : Option String := none
  action : Option String := none
  target : Option String := none
  targetType : Option String := none
  startDate : Option Nat := none
  endDate : Option Nat := none
  limit : Option Nat := none
  offset : Option Nat := none
deriving DecidableEq, Repr

/-- A string filter of `getLogs` is applied when the option is present and
truthy (a present empty string is falsy in JavaScript and skips the
filter). -/
def applyStrFilter (o : Option String) (proj : AuditLog → String)
    (l : List AuditLog) : List AuditLog :=
  match o with
  | none => l
  | some v => if v = "" then l else l.filter (fun a => proj a = v)

/-- Stable descending insertion by timestamp: an element is placed before the
first strictly older entry, so entries with equal timestamps retain their
relative order.  Models the stable `Array.prototype.sort` with comparator
`b.timestamp - a.timestamp` on line 108. -/
def insertByTsDesc (x : AuditLog) : List AuditLog → List AuditLog
  | [] => [x]
  | y :: ys =>
    if y.timestamp ≤ x.timestamp then x :: y :: ys else y :: insertByTsDesc x ys

/-- Stable descending sort by timestamp. -/
def sortByTsDesc : List AuditLog → List AuditLog
  | [] => []
  | x :: xs => insertByTsDesc x (sortByTsDesc xs)

/-- The filter-and-sort pipeline of `getLogs` before slicing
(`src/unnamed/part_000` lines 82-108). -/
def filteredSorted (s : AuditLogService) (o : GetLogsOptions) : List AuditLog :=
  let f := s.logs
  let f := applyStrFilter o.actor (fun a => a.actor) f
  let f := applyStrFilter o.action (fun a => a.action) f
  let f := applyStrFilter o.target (fun a => a.target) f
  let f := applyStrFilter o.targetType (fun a => a.targetType.str) f
  let f := match o.startDate with
    | none => f
    | some d => f.filter (fun a => decide (d ≤ a.timestamp))
  let f := match o.endDate with
    | none => f
    | some d => f.filter (fun a => decide (a.timestamp ≤ d))
  sortByTsDesc f

/-- `AuditLogService.getLogs` of `src/unnamed/part_000` lines 72-114: the
`offset` and `limit` options are tested for truthiness (line 110-111), so a
present `0` falls back to the defaults `0` and `filtered.length`;
`slice(offset, offset + limit)` is `drop` then `take`. -/
def AuditLogService.getLogs (s : AuditLogService) (o : GetLogsOptions) :
    List AuditLog :=
  let filtered := filteredSorted s o
  let offset := match o.offset with
    | some v => if v ≠ 0 then v else 0
    | none => 0
  let limit := match o.limit with
    | some v => if v ≠ 0 then v else filtered.length
    | none => filtered.length
  (filtered.drop offset).take limit

/-- The eight exported cells of one CSV row, in the fixed column order of
`src/unnamed/part_000` lines 165-174 (`previousHash || ''` renders an absent
previous hash as the empty string). -/
def csvFields (l : AuditLog) : List String :=
  [l.id, l.action, l.actor, l.target, l.targetType.str,
   toISOString l.timestamp, l.hash, l.previousHash.getD ""]

/-- The fixed CSV header cells of `src/unnamed/part_000` lines 160-163. -/
def csvHeaders : List String :=
  ["id", "action", "actor", "target", "targetType",
   "timestamp", "hash", "previousHash"]

/-- The CSV branch of `AuditLogService.exportForCompliance`
(`src/unnamed/part_000` lines 155-177): header and rows are comma-joined with
no escaping, then newline-joined. -/
def AuditLogService.exportCsv (s : AuditLogService) : String :=
  joinWith "\n"
    (joinWith "," csvHeaders :: s.logs.map (fun l => joinWith "," (csvFields l)))

/-- A single-field storage corruption of a stored entry, as in the tamper
model of the spec: one field of the record is overwritten with an arbitrary
value of its type. -/
inductive FieldMutation where
  | mid (v : String)
  | maction (v : String)
  | mactor (v : String)
  | mtarget (v : String)
  | mtargetType (v : TargetType)
  | mtimestamp (v : Nat)
  | mdetails (v : String)
  | mhash (v : String)
  | mpreviousHash (v : String)
  | mipAddress (v : Option String)
  | muserAgent (v : Option String)
deriving DecidableEq, Repr

/-- Applies a single-field mutation to an entry. -/
def applyMutation (m : FieldMutation) (a : AuditLog) : AuditLog :=
  match m with
  | .mid v => { a with id := v }
  | .maction v => { a with action := v }
  | .mactor v => { a with actor := v }
  | .mtarget v => { a with target := v }
  | .mtargetType v => { a with targetType := v }
  | .mtimestamp v => { a with timestamp := v }
  | .mdetails v => { a with details := v }
  | .mhash v => { a with hash := v }
  | .mpreviousHash v => { a with previousHash := some v }
  | .mipAddress v => { a with ipAddress := v }
  | .muserAgent v => { a with userAgent := v }

/-- Mutates the entry at position `k` of the stored vector, leaving the rest
unchanged. -/
def mutateAt : Nat → FieldMutation → List AuditLog → List AuditLog
  | _, _, [] => []
  | 0, m, a :: as => applyMutation m a :: as
  | k + 1, m, a :: as => a :: mutateAt k m as

/-- `RollbackTriggerSchema` of `src/types.ts` line 23. -/
inductive RollbackTrigger where
  | manual
  | automated
deriving DecidableEq, Repr

/-- `RollbackStatusSchema` of `src/types.ts` line 26. -/
inductive RollbackStatus where
  | pending
  | in_progress
  | completed
  | failed
deriving DecidableEq, Repr

/-- `TriggerReasonSchema` of `src/types.ts` lines 32-39. -/
inductive TriggerReason where
  | error_rate_spike
  | safety_violation
  | performance_degradation
  | manual_request
  | scheduled_rollback
deriving DecidableEq, Repr

/-- The `autoRollbackConfig` snapshot object embedded in a rollback record
(`src/types.ts` lines 152-158): the thresholds in force at creation time,
copied from the service configuration. -/
structure AutoRollbackSnapshot where
  errorRateThreshold : ℚ
  safetyViolationThreshold : ℚ
  performanceThresholdMs : ℚ
  detectionWindowSeconds : ℚ
  cooldownSeconds : ℚ
deriving DecidableEq, Repr

/-- The `Rollback` record of `src/types.ts` lines 140-160.  Timestamps are
millisecond epoch naturals; rates and thresholds are rationals. -/
structure Rollback where
  id : String
  targetVersion : String
  targetCommitId : Option String
  trigger : RollbackTrigger
  reason : TriggerReason
  initiatedBy : String
  timestamp : Nat
  status : RollbackStatus
  completedAt : Option Nat
  error : Option String
  affectedArtifacts : List String
  autoRollbackConfig : Option AutoRollbackSnapshot
deriving DecidableEq, Repr

/-- `RollbackSchema.safeParse` of `src/types.ts` lines 140-160, restricted to
the checks not already enforced by the embedding types: `id` and the optional
`targetCommitId` must be uuids, `targetVersion` is an unconstrained string
(`z.string()`, so the empty string passes), and every affected artifact id
must be a uuid. -/
def validateRollback (r : Rollback) : Bool :=
  isUuid r.id &&
  (match r.targetCommitId with
   | none => true
   | some c => isUuid c) &&
  r.affectedArtifacts.all isUuid

/-- `RollbackConfig` of `src/crypto.ts` lines 233-240. -/
structure RollbackConfig where
  errorRateThreshold : ℚ
  safetyViolationThreshold : ℚ
  performanceThresholdMs : ℚ
  detectionWindowSeconds : ℚ
  cooldownSeconds : ℚ
  maxRollbacksPerHour : Nat
deriving DecidableEq, Repr

/-- `RollbackMetrics` of `src/crypto.ts` lines 225-231. -/
structure RollbackMetrics where
  errorRate : ℚ
  safetyViolations : ℚ
  averageResponseTimeMs : ℚ
  totalRequests : Nat
  failedRequests : Nat
deriving DecidableEq, Repr

/-- The error taxonomy thrown by the governor: the source throws plain
`Error`s whose messages distinguish the unknown-id, illegal-transition and
schema-validation cases; each throw site is mapped to the matching
constructor, carrying the source message. -/
inductive RollbackError where
  | notFound (id : String)
  | invalidState (msg : String)
  | validation (msg : String)
deriving DecidableEq, Repr

/-- The `RollbackService` state of `src/crypto.ts` lines 242-259: the
insertion-ordered record map, the configuration, the cooldown clock and the
increment-only hourly counter.  `auditActions` records the action names of
the ledger entries the service appends, in order (the shared
`AuditLogService` collaborator); the optional notification hook is an
external side effect outside the state. -/
structure RollbackService where
  rollbacks : List (String × Rollback)
  config : RollbackConfig
  lastRollbackTime : Nat
  rollbackCountLastHour : Nat
  auditActions : List String
deriving DecidableEq, Repr

/-- `Map.prototype.get` on the insertion-ordered record map. -/
def mapGet (m : List (String × Rollback)) (k : String) : Option Rollback :=
  (m.find? (fun p => p.1 = k)).map (fun p => p.2)

/-- `Map.prototype.set`: replaces the binding in place when the key exists,
otherwise appends it. -/
def mapSet : List (String × Rollback) → String → Rollback →
    List (String × Rollback)
  | [], k, v => [(k, v)]
  | (k', v') :: rest, k, v =>
    if k' = k then (k, v) :: rest else (k', v') :: mapSet rest k v

/-- The parameter object of `RollbackService.initiateRollback`
(`src/crypto.ts` lines 301-308). -/
structure InitiateParams where
  targetVersion : String
  trigger : RollbackTrigger
  triggerReason : TriggerReason
  initiatedBy : String
  description : Option String := none
  targetCommitId : Option String := none
deriving DecidableEq, Repr

/-- `RollbackService.initiateRollback` of `src/crypto.ts` lines 301-355:
builds a `pending` record snapshotting the configuration thresholds,
validates it against `RollbackSchema`, stores it, stamps
`lastRollbackTime`, increments the hourly counter, and appends a
`ROLLBACK_INITIATED` ledger entry.  The generated `uuidv4()` and the clock
reading are passed explicitly as `newId` and `now`. -/
def RollbackService.initiateRollback (s : RollbackService)
    (params : InitiateParams) (newId : String) (now : Nat) :
    Except RollbackError (RollbackService × Rollback) :=
  let rollback : Rollback :=
    { id := newId
      targetVersion := params.targetVersion
      targetCommitId := params.targetCommitId
      trigger := params.trigger
      reason := params.triggerReason
      initiatedBy := params.initiatedBy
      timestamp := now
      status := .pending
      completedAt := none
      error := none
      affectedArtifacts := []
      autoRollbackConfig := some
        { errorRateThreshold := s.config.errorRateThreshold
          safetyViolationThreshold := s.config.safetyViolationThreshold
          performanceThresholdMs := s.config.performanceThresholdMs
          detectionWindowSeconds := s.config.detectionWindowSeconds
          cooldownSeconds := s.config.cooldownSeconds } }
  if validateRollback rollback then
    .ok ({ s with
            rollbacks := mapSet s.rollbacks newId rollback
            lastRollbackTime := now
            rollbackCountLastHour := s.rollbackCountLastHour + 1
            auditActions := s.auditActions ++ ["ROLLBACK_INITIATED"] },
         rollback)
  else
    .error (.validation "Invalid rollback")

/-- The trigger-condition chain of `RollbackService.checkAndTriggerRollback`
(`src/crypto.ts` lines 276-284): safety violations first, then error rate,
then latency, each a strict threshold comparison, first match wins. -/
def triggerReasonFor (config : RollbackConfig) (m : RollbackMetrics) :
    Option TriggerReason :=
  if m.safetyViolations > config.safetyViolationThreshold then
    some .safety_violation
  else if m.errorRate > config.errorRateThreshold then
    some .error_rate_spike
  else if m.averageResponseTimeMs > config.performanceThresholdMs then
    some .performance_degradation
  else
    none

/-- `RollbackService.checkAndTriggerRollback` of `src/crypto.ts`
lines 261-299: cooldown gate (elapsed seconds below `cooldownSeconds`
suppresses), then rate gate (`rollbackCountLastHour` at or above
`maxRollbacksPerHour` suppresses), then the trigger chain; a match calls
`initiateRollback` with the empty `targetVersion` local, `automated`
trigger and `system` initiator. -/
def RollbackService.checkAndTriggerRollback (s : RollbackService)
    (m : RollbackMetrics) (now : Nat) (newId : String) :
    Except RollbackError (RollbackService × Option Rollback) :=
  let timeSinceLastRollback : ℚ :=
    ((now : ℚ) - (s.lastRollbackTime : ℚ)) / 1000
  if timeSinceLastRollback < s.config.cooldownSeconds then
    .ok (s, none)
  else if s.config.maxRollbacksPerHour ≤ s.rollbackCountLastHour then
    .ok (s, none)
  else
    match triggerReasonFor s.config m with
    | none => .ok (s, none)
    | some reason =>
      match s.initiateRollback
          { targetVersion := ""
            trigger := .automated
            triggerReason := reason
            initiatedBy := "system"
            description := some "Automated trigger"
            targetCommitId := none } newId now with
      | .error e => .error e
      | .ok (s', r) => .ok (s', some r)

/-- `RollbackService.executeRollback` of `src/crypto.ts` lines 357-379:
unknown ids throw not-found; a record not in `pending` throws the
illegal-transition error before any mutation; otherwise the record moves to
`in_progress` and a ledger entry is appended. -/
def RollbackService.executeRollback (s : RollbackService)
    (rollbackId : String) : Except RollbackError (RollbackService × Rollback) :=
  match mapGet s.rollbacks rollbackId with
  | none => .error (.notFound rollbackId)
  | some r =>
    if r.status ≠ .pending then
      .error (.invalidState "Rollback is not in pending status")
    else
      let r' := { r with status := .in_progress }
      .ok ({ s with
              rollbacks := mapSet s.rollbacks rollbackId r'
              auditActions := s.auditActions ++ ["ROLLBACK_IN_PROGRESS"] }, r')

/-- `RollbackService.completeRollback` of `src/crypto.ts` lines 381-404:
unknown ids throw not-found; there is no status check, so whatever the
current status, the record is stamped `completed` with `completedAt` and the
affected artifacts, and a ledger entry is appended. -/
def RollbackService.completeRollback (s : RollbackService)
    (rollbackId : String) (affectedArtifacts : List String) (now : Nat) :
    Except RollbackError (RollbackService × Rollback) :=
  match mapGet s.rollbacks rollbackId with
  | none => .error (.notFound rollbackId)
  | some r =>
    let r' := { r with
                status := .completed
                completedAt := some now
                affectedArtifacts := affectedArtifacts }
    .ok ({ s with
            rollbacks := mapSet s.rollbacks rollbackId r'
            auditActions := s.auditActions ++ ["ROLLBACK_COMPLETED"] }, r')

/-- `RollbackService.failRollback` of `src/crypto.ts` lines 406-426: unknown
ids throw not-found; there is no status check, so the record is stamped
`failed` with `completedAt` and the error detail, and a ledger entry is
appended. -/
def RollbackService.failRollback (s : RollbackService) (rollbackId : String)
    (errDetail : String) (now : Nat) :
    Except RollbackError (RollbackService × Rollback) :=
  match mapGet s.rollbacks rollbackId with
  | none => .error (.notFound rollbackId)
  | some r =>
    let r' := { r with
                status := .failed
                completedAt := some now
                error := some errDetail }
    .ok ({ s with
            rollbacks := mapSet s.rollbacks rollbackId r'
            auditActions := s.auditActions ++ ["ROLLBACK_FAILED"] }, r')

/-- `RollbackService.cancelRollback` of `src/crypto.ts` lines 531-553:
unknown ids throw not-found; only `pending` records may be cancelled,
otherwise the illegal-transition error is thrown before any mutation; a
cancelled record is stamped `failed` with the distinguishing
cancelled-by marker. -/
def RollbackService.cancelRollback (s : RollbackService) (rollbackId : String)
    (cancelledBy : String) (now : Nat) : Except RollbackError RollbackService :=
  match mapGet s.rollbacks rollbackId with
  | none => .error (.notFound rollbackId)
  | some r =>
    if r.status ≠ .pending then
      .error (.invalidState "Only pending rollbacks can be cancelled")
    else
      let r' := { r with
                  status := .failed
                  error := some ("Cancelled by " ++ cancelledBy)
                  completedAt := some now }
      .ok { s with
            rollbacks := mapSet s.rollbacks rollbackId r'
            auditActions := s.auditActions ++ ["ROLLBACK_CANCELLED"] }

/-- Number of newline characters in a string. -/
def countNl (s : String) : Nat := s.data.count '\n'

/-- Whether a string contains a given character (on the underlying character
list, so that it computes by structural recursion). -/
def hasChar (s : String) (c : Char) : Bool := s.data.any (fun x => x = c)

/-- Number of lines of a text: one more than its newline count. -/
def lineCount (s : String) : Nat := countNl s + 1

/-- Doubles every double quote in a character list. -/
def escQuotes : List Char → List Char
  | [] => []
  | c :: cs => if c = '"' then '"' :: '"' :: escQuotes cs else c :: escQuotes cs

/-- Modelled from the spec: RFC-4180-style escaping of one CSV field — a
field containing the comma delimiter, a double quote, or a newline is
surrounded by double quotes with inner quotes doubled; other fields are
emitted verbatim. -/
def rfcEscapeField (f : String) : String :=
  if hasChar f ',' || hasChar f '"' || hasChar f '\n' then
    "\"" ++ String.mk (escQuotes f.data) ++ "\""
  else f

/-- Modelled from the spec: the CSV export as the spec demands it — the same
fixed header and ledger-ordered rows, but with every field escaped
RFC-4180 style.  Compared against the source's `exportCsv`. -/
def csvExportEscapedSpec (s : AuditLogService) : String :=
  joinWith "\n"
    (joinWith "," csvHeaders ::
      s.logs.map (fun l => joinWith "," ((csvFields l).map rfcEscapeField)))

/-- Extracts the service from a successful `logMany` run, falling back to the
given default on failure (used only to name concrete fixture ledgers). -/
def okOr (d : AuditLogService) : Except String AuditLogService → AuditLogService
  | .ok s => s
  | .error _ => d

/-- A fixed version-4-shaped uuid used by the concrete fixtures. -/
def uuidA : String := "11111111-1111-4111-8111-111111111111"

/-- A second fixed uuid. -/
def uuidB : String := "22222222-2222-4222-8222-222222222222"

/-- A third fixed uuid. -/
def uuidC : String := "33333333-3333-4333-8333-333333333333"

/-- A plain append input. -/
def entryCreate : AuditLogEntryInput :=
  { action := "CREATE"
    actor := "alice"
    target := "artifact-1"
    targetType := .artifact
    details := none }

/-- A second plain append input. -/
def entryUpdate : AuditLogEntryInput :=
  { action := "UPDATE"
    actor := "alice"
    target := "artifact-1"
    targetType := .artifact
    details := none }

/-- An append input whose action contains the CSV delimiter. -/
def entryComma : AuditLogEntryInput :=
  { action := "CREATE,DELETE"
    actor := "alice"
    target := "artifact-1"
    targetType := .artifact
    details := none }

/-- One-append fixture input list. -/
def exInputs1 : List LogInput := [(entryCreate, uuidA, 10)]

/-- Two-append fixture input list (timestamps 10 and 1000). -/
def exInputs2 : List LogInput := [(entryCreate, uuidA, 10), (entryUpdate, uuidB, 1000)]

/-- One-append fixture with a comma inside the action field. -/
def exInputsComma : List LogInput := [(entryComma, uuidA, 10)]

/-- The ledger after the one-append fixture run from a service constructed at
time 0. -/
def exLedger1 : AuditLogService :=
  okOr (AuditLogService.init 0) (logMany (AuditLogService.init 0) exInputs1)

/-- The ledger after the two-append fixture run. -/
def exLedger2 : AuditLogService :=
  okOr (AuditLogService.init 0) (logMany (AuditLogService.init 0) exInputs2)

/-- The ledger after the comma-action fixture run. -/
def exLedgerComma : AuditLogService :=
  okOr (AuditLogService.init 0) (logMany (AuditLogService.init 0) exInputsComma)

/-- The default governor configuration `DEFAULT_ROLLBACK_CONFIG` of
`src/crypto.ts` lines 579-586. -/
def defaultRollbackConfig : RollbackConfig :=
  { errorRateThreshold := 1/20
    safetyViolationThreshold := 0
    performanceThresholdMs := 5000
    detectionWindowSeconds := 60
    cooldownSeconds := 300
    maxRollbacksPerHour := 10 }

/-- A freshly constructed governor over a configuration. -/
def freshRollbackService (cfg : RollbackConfig) : RollbackService :=
  { rollbacks := []
    config := cfg
    lastRollbackTime := 0
    rollbackCountLastHour := 0
    auditActions := [] }

/-- Fixture governor with the hourly cap 2 already reached. -/
def svcLocked : RollbackService :=
  { freshRollbackService { defaultRollbackConfig with maxRollbacksPerHour := 2 }
    with rollbackCountLastHour := 2 }

/-- Fixture record in the terminal `failed` state. -/
def rbFailed : Rollback :=
  { id := uuidA
    targetVersion := "1.0.0"
    targetCommitId := none
    trigger := .manual
    reason := .manual_request
    initiatedBy := "alice"
    timestamp := 0
    status := .failed
    completedAt := some 1
    error := some "boom"
    affectedArtifacts := []
    autoRollbackConfig := none }

/-- Fixture record in the `in_progress` state. -/
def rbInProgress : Rollback :=
  { rbFailed with id := uuidB, status := .in_progress, completedAt := none, error := none }

/-- Fixture governor holding `rbFailed` under `uuidA` and `rbInProgress`
under `uuidB`. -/
def svcRecords : RollbackService :=
  { freshRollbackService defaultRollbackConfig
    with rollbacks := [(uuidA, rbFailed), (uuidB, rbInProgress)] }

/-- Fixture metrics breaching both the safety and the error-rate thresholds
of the default configuration simultaneously. -/
def metricsBoth : RollbackMetrics :=
  { errorRate := 9/10
    safetyViolations := 1
    averageResponseTimeMs := 100
    totalRequests := 100
    failedRequests := 90 }

/-- The record created by a `checkAndTriggerRollback` result, when the call
succeeded and did trigger. -/
def triggeredRecord
    (res : Except RollbackError (RollbackService × Option Rollback)) :
    Option Rollback :=
  match res with
  | .ok (_, some r) => some r
  | _ => none

/-- The updated record returned by a state-transition call, when it
succeeded. -/
def resultRecord (res : Except RollbackError (RollbackService × Rollback)) :
    Option Rollback :=
  match res with
  | .ok (_, r) => some r
  | .error _ => none

/-- A successful append pushes exactly one entry, whose stored
`previousHash` is the service's previous tail hash (in particular it is
never absent). -/
theorem log_ok_shape (s : AuditLogService) (e : AuditLogEntryInput)
    (id : String) (t : Nat) (s' : AuditLogService) (a : AuditLog)
    (h : s.log e id t = .ok (s', a)) :
    s'.logs = s.logs ++ [a] ∧ a.previousHash = some s.lastHash := by
  simp only [AuditLogService.log, validateAuditLog] at h
  split at h
  · simp only [Except.ok.injEq, Prod.mk.injEq] at h
    obtain ⟨hs, ha⟩ := h
    subst hs
    subst ha
    exact ⟨rfl, rfl⟩
  · exact absurd h (by simp)

/-- Along any successful run of appends, every stored entry keeps a present
`previousHash`. -/
theorem logMany_previousHash_isSome (inputs : List LogInput) :
    ∀ (s s' : AuditLogService),
    (∀ a ∈ s.logs, a.previousHash.isSome) →
    logMany s inputs = .ok s' →
    ∀ a ∈ s'.logs, a.previousHash.isSome := by
  induction inputs with
  | nil =>
    intro s s' hinv h
    unfold logMany at h
    simp only [Except.ok.injEq] at h
    subst h
    exact hinv
  | cons x rest ih =>
    intro s s' hinv h
    obtain ⟨e, id, t⟩ := x
    unfold logMany at h
    revert h
    cases hlog : s.log e id t with
    | error m => intro h; exact absurd h (by simp)
    | ok p =>
      intro h
      obtain ⟨s1, a⟩ := p
      obtain ⟨hlogs, hprev⟩ := log_ok_shape s e id t s1 a hlog
      refine ih s1 s' ?_ h
      intro b hb
      rw [hlogs] at hb
      rcases List.mem_append.mp hb with hb | hb
      · exact hinv b hb
      · simp only [List.mem_singleton] at hb
        subst hb
        simp [hprev]

/-- A successful run of `n` appends grows the log vector by `n` entries. -/
theorem logMany_length (inputs : List LogInput) :
    ∀ (s s' : AuditLogService),
    logMany s inputs = .ok s' →
    s'.logs.length = s.logs.length + inputs.length := by
  induction inputs with
  | nil =>
    intro s s' h
    unfold logMany at h
    simp only [Except.ok.injEq] at h
    subst h
    simp
  | cons x rest ih =>
    intro s s' h
    obtain ⟨e, id, t⟩ := x
    unfold logMany at h
    revert h
    cases hlog : s.log e id t with
    | error m => intro h; exact absurd h (by simp)
    | ok p =>
      intro h
      obtain ⟨s1, a⟩ := p
      obtain ⟨hlogs, _⟩ := log_ok_shape s e id t s1 a hlog
      have := ih s1 s' h
      rw [this, hlogs]
      simp
      omega

/-- The verification walk rejects index 0 outright whenever the first stored
entry carries a present `previousHash`, because the walk expects the first
entry's `previousHash` to be absent. -/
theorem verifyFrom_head_some (l : AuditLog) (ls : List AuditLog) (i : Nat)
    (h : l.previousHash.isSome) : verifyFrom none i (l :: ls) = some i := by
  unfold verifyFrom
  rw [if_pos]
  cases hp : l.previousHash with
  | none => rw [hp] at h; exact absurd h (by simp)
  | some v => simp [hp]

/-- On a service whose first stored entry has a present `previousHash`,
`verifyIntegrity` reports the chain broken at index 0. -/
theorem verifyIntegrity_headSome (s : AuditLogService) (l : AuditLog)
    (ls : List AuditLog) (hl : s.logs = l :: ls)
    (h : l.previousHash.isSome) :
    s.verifyIntegrity = { valid := false, brokenAt := some 0 } := by
  unfold AuditLogService.verifyIntegrity
  rw [hl, verifyFrom_head_some l ls 0 h]

/-- C1: the claim asserts that after any nonempty sequence of successful
appends on a freshly constructed ledger, with no tampering,
`verifyIntegrity` returns valid.  The code does the opposite: `log` stores
the genesis hash string as the first entry's `previousHash`, while the
verification walk compares that field against the absent value at index 0,
so every nonempty untampered ledger is reported broken at index 0. -/
theorem verifyIntegrity_rejects_fresh_chain (t0 : Nat)
    (inputs : List LogInput) (s' : AuditLogService)
    (hne : inputs ≠ [])
    (h : logMany (AuditLogService.init t0) inputs = .ok s') :
    s'.verifyIntegrity = { valid := false, brokenAt := some 0 } := by
  have hsome : ∀ a ∈ s'.logs, a.previousHash.isSome :=
    logMany_previousHash_isSome inputs (AuditLogService.init t0) s'
      (by intro a ha; exact absurd ha (by simp [AuditLogService.init])) h
  have hlen : s'.logs.length = inputs.length := by
    have := logMany_length inputs (AuditLogService.init t0) s' h
    simpa [AuditLogService.init] using this
  cases hl : s'.logs with
  | nil =>
    rw [hl] at hlen
    exact absurd (List.eq_nil_of_length_eq_zero hlen.symm) hne
  | cons l ls =>
    exact verifyIntegrity_headSome s' l ls hl (hsome l (by rw [hl]; simp))

/-- Witness for C1's bug theorem: one concrete append from a fresh service,
reported broken at index 0. -/
theorem verifyIntegrity_rejects_fresh_chain_witness :
    exInputs1 ≠ [] ∧
    exLedger1.verifyIntegrity = { valid := false, brokenAt := some 0 } :=
  ⟨by simp [exInputs1],
   verifyIntegrity_rejects_fresh_chain 0 exInputs1 exLedger1
     (by simp [exInputs1]) rfl⟩

/-- A single-field storage corruption never removes the stored
`previousHash`: every mutation keeps the field present (the `previousHash`
mutation overwrites it with another present string). -/
theorem applyMutation_previousHash_isSome (m : FieldMutation) (a : AuditLog)
    (h : a.previousHash.isSome) :
    ((applyMutation m a).previousHash).isSome := by
  cases m <;> simp only [applyMutation] <;> first | exact h | rfl

/-- C2 (amended): on any ledger built by a nonempty sequence of successful
appends from a fresh service, corrupting any single field of any entry `k`
makes `verifyIntegrity` report the chain broken — but always at index 0,
not at `k`: the walk already rejects the first entry's stored genesis
`previousHash` before it can reach the corrupted index. -/
theorem tampered_chain_breaks_at_zero (t0 : Nat) (inputs : List LogInput)
    (s' : AuditLogService) (k : Nat) (m : FieldMutation)
    (hne : inputs ≠ [])
    (h : logMany (AuditLogService.init t0) inputs = .ok s') :
    AuditLogService.verifyIntegrity
      { logs := mutateAt k m s'.logs, lastHash := s'.lastHash } =
      { valid := false, brokenAt := some 0 } := by
  have hsome : ∀ a ∈ s'.logs, a.previousHash.isSome :=
    logMany_previousHash_isSome inputs (AuditLogService.init t0) s'
      (by intro a ha; exact absurd ha (by simp [AuditLogService.init])) h
  have hlen : s'.logs.length = inputs.length := by
    have := logMany_length inputs (AuditLogService.init t0) s' h
    simpa [AuditLogService.init] using this
  cases hl : s'.logs with
  | nil =>
    rw [hl] at hlen
    exact absurd (List.eq_nil_of_length_eq_zero hlen.symm) hne
  | cons l ls =>
    have hls : l.previousHash.isSome := hsome l (by rw [hl]; simp)
    cases k with
    | zero =>
      refine verifyIntegrity_headSome _ (applyMutation m l) ls ?_ ?_
      · simp [hl, mutateAt]
      · exact applyMutation_previousHash_isSome m l hls
    | succ k' =>
      refine verifyIntegrity_headSome _ l (mutateAt k' m ls) ?_ hls
      simp [hl, mutateAt]

/-- Witness for the amended C2 theorem: the concrete two-append ledger with
entry 1's action corrupted is reported broken at index 0. -/
theorem tampered_chain_breaks_at_zero_witness :
    exInputs2 ≠ [] ∧
    AuditLogService.verifyIntegrity
      { logs := mutateAt 1 (FieldMutation.maction "EVIL") exLedger2.logs,
        lastHash := exLedger2.lastHash } =
      { valid := false, brokenAt := some 0 } :=
  ⟨by simp [exInputs2],
   tampered_chain_breaks_at_zero 0 exInputs2 exLedger2 1
     (FieldMutation.maction "EVIL") (by simp [exInputs2]) rfl⟩

/-- Counterexample to C2 as stated: in the concrete two-append ledger,
corrupting the `action` field of entry `k = 1` does not produce
`brokenAt = 1` — the walk reports index 0. -/
theorem tamper_not_reported_at_corrupted_index :
    AuditLogService.verifyIntegrity
      { logs := mutateAt 1 (FieldMutation.maction "EVIL") exLedger2.logs,
        lastHash := exLedger2.lastHash } ≠
      { valid := false, brokenAt := some 1 } ∧
    AuditLogService.verifyIntegrity
      { logs := mutateAt 1 (FieldMutation.maction "EVIL") exLedger2.logs,
        lastHash := exLedger2.lastHash } =
      { valid := false, brokenAt := some 0 } := by
  constructor <;> decide

/-- The two retention filters of `archiveOldLogs` partition the entry
vector. -/
theorem filter_partition_length (l : List AuditLog) (c : Nat) :
    (l.filter (fun x => decide (x.timestamp < c))).length +
    (l.filter (fun x => decide (c ≤ x.timestamp))).length = l.length := by
  induction l with
  | nil => simp
  | cons a as ih =>
    by_cases hc : a.timestamp < c
    · have hnot : ¬ c ≤ a.timestamp := Nat.not_le.mpr hc
      simp [List.filter_cons, hc, hnot]
      omega
    · have hge : c ≤ a.timestamp := Nat.not_lt.mp hc
      simp [List.filter_cons, hc, hge]
      omega

/-- C3 (amended): `archiveOldLogs` merely drops the entries older than the
cutoff — the archived and retained counts partition the ledger, the pruned
entries are not persisted anywhere in the service, the tail hash is left
untouched, and whenever at least one (appended) entry is retained the
retained ledger fails `verifyIntegrity` at index 0; neither an archive
keyed by the boundary hash nor a re-genesis of the retained segment
exists. -/
theorem archiveOldLogs_leaves_retained_unverifiable (t0 : Nat)
    (inputs : List LogInput) (s' : AuditLogService) (cutoff : Nat)
    (h : logMany (AuditLogService.init t0) inputs = .ok s') :
    (s'.archiveOldLogs cutoff).2.1 + (s'.archiveOldLogs cutoff).2.2 =
      inputs.length ∧
    (s'.archiveOldLogs cutoff).1.lastHash = s'.lastHash ∧
    ((s'.archiveOldLogs cutoff).1.logs ≠ [] →
      (s'.archiveOldLogs cutoff).1.verifyIntegrity =
        { valid := false, brokenAt := some 0 }) := by
  have hsome : ∀ a ∈ s'.logs, a.previousHash.isSome :=
    logMany_previousHash_isSome inputs (AuditLogService.init t0) s'
      (by intro a ha; exact absurd ha (by simp [AuditLogService.init])) h
  have hlen : s'.logs.length = inputs.length := by
    have := logMany_length inputs (AuditLogService.init t0) s' h
    simpa [AuditLogService.init] using this
  refine ⟨?_, rfl, ?_⟩
  · simpa [AuditLogService.archiveOldLogs, hlen] using
      filter_partition_length s'.logs cutoff
  · intro hne
    cases hl : (s'.archiveOldLogs cutoff).1.logs with
    | nil => exact absurd hl hne
    | cons l ls =>
      refine verifyIntegrity_headSome _ l ls hl ?_
      have hmem : l ∈ (s'.archiveOldLogs cutoff).1.logs := by
        rw [hl]; exact List.mem_cons_self l ls
      have hfil : l ∈ List.filter (fun x => decide (cutoff ≤ x.timestamp))
          s'.logs := by
        simpa only [AuditLogService.archiveOldLogs] using hmem
      exact hsome l (List.mem_of_mem_filter hfil)

/-- Witness for the amended C3 theorem: pruning the older of the two
concrete entries at cutoff 500. -/
theorem archiveOldLogs_leaves_retained_unverifiable_witness :
    (exLedger2.archiveOldLogs 500).2.1 + (exLedger2.archiveOldLogs 500).2.2 =
      exInputs2.length ∧
    (exLedger2.archiveOldLogs 500).1.lastHash = exLedger2.lastHash ∧
    ((exLedger2.archiveOldLogs 500).1.logs ≠ [] →
      (exLedger2.archiveOldLogs 500).1.verifyIntegrity =
        { valid := false, brokenAt := some 0 }) :=
  archiveOldLogs_leaves_retained_unverifiable 0 exInputs2 exLedger2 500 rfl

/-- Counterexample to C3 as stated: pruning the 2-entry concrete chain at
cutoff 500 archives one entry and retains one, and `verifyIntegrity` on the
retained ledger is not valid — the retained segment is neither archived
elsewhere nor re-rooted at the boundary hash. -/
theorem pruned_ledger_not_verifiable :
    (exLedger2.archiveOldLogs 500).2 = (1, 1) ∧
    (exLedger2.archiveOldLogs 500).1.verifyIntegrity.valid = false := by
  constructor <;> decide

/-- Newline counting distributes over string concatenation. -/
theorem countNl_append (a b : String) :
    countNl (a ++ b) = countNl a + countNl b := by
  show List.count '\n' (a.data ++ b.data) = _
  exact List.count_append '\n' a.data b.data

/-- A string without a newline character has newline count zero. -/
theorem countNl_eq_zero_of_no_nl (s : String) (h : hasChar s '\n' = false) :
    countNl s = 0 := by
  refine List.count_eq_zero.mpr ?_
  intro hmem
  have htrue : hasChar s '\n' = true := by
    simp only [hasChar, List.any_eq_true, decide_eq_true_eq]
    exact ⟨'\n', hmem, rfl⟩
  rw [htrue] at h
  exact absurd h (by simp)

/-- Joining newline-free cells with a newline-free separator yields a
newline-free string. -/
theorem countNl_joinWith_zero (sep : String) (hsep : countNl sep = 0)
    (l : List String) (h : ∀ f ∈ l, countNl f = 0) :
    countNl (joinWith sep l) = 0 := by
  induction l with
  | nil => rfl
  | cons x xs ih =>
    cases xs with
    | nil => exact h x (by simp)
    | cons y ys =>
      have hx : countNl x = 0 := h x (by simp)
      have hrest : countNl (joinWith sep (y :: ys)) = 0 :=
        ih (by intro f hf; exact h f (by simp [hf]))
      rw [show joinWith sep (x :: y :: ys) =
            x ++ sep ++ joinWith sep (y :: ys) from rfl,
          countNl_append, countNl_append, hx, hsep, hrest]

/-- Joining `n` newline-free lines with the newline separator produces a
string with exactly `n - 1` newline characters. -/
theorem countNl_joinWith_nl (lines : List String)
    (h : ∀ x ∈ lines, countNl x = 0) (hne : lines ≠ []) :
    countNl (joinWith "\n" lines) = lines.length - 1 := by
  induction lines with
  | nil => exact absurd rfl hne
  | cons x xs ih =>
    cases xs with
    | nil => simpa using h x (by simp)
    | cons y ys =>
      have hx : countNl x = 0 := h x (by simp)
      have hrest : countNl (joinWith "\n" (y :: ys)) = (y :: ys).length - 1 :=
        ih (by intro f hf; exact h f (by simp [hf])) (by simp)
      rw [show joinWith "\n" (x :: y :: ys) =
            x ++ "\n" ++ joinWith "\n" (y :: ys) from rfl,
          countNl_append, countNl_append, hx, hrest]
      rw [show countNl "\n" = 1 from rfl]
      simp only [List.length_cons]
      omega

/-- C8 (amended): the CSV export emits the fixed 8-column header followed by
one unescaped comma-joined row per entry in ledger order; whenever no
emitted field contains a newline character, the output has exactly `N + 1`
lines.  (Fields containing the delimiter or quotes are still emitted
verbatim — see the counterexample theorem.) -/
theorem exportCsv_line_count (s : AuditLogService)
    (h : ∀ l ∈ s.logs,
      ((csvFields l).all (fun f => !hasChar f '\n')) = true) :
    lineCount (s.exportCsv) = s.logs.length + 1 := by
  unfold lineCount AuditLogService.exportCsv
  have hlines : ∀ x ∈ joinWith "," csvHeaders ::
      s.logs.map (fun l => joinWith "," (csvFields l)), countNl x = 0 := by
    intro x hx
    rcases List.mem_cons.mp hx with hx | hx
    · subst hx; decide
    · obtain ⟨l, hl, hxl⟩ := List.mem_map.mp hx
      subst hxl
      refine countNl_joinWith_zero "," (by decide) _ ?_
      intro f hf
      have := h l hl
      simp only [List.all_eq_true, Bool.not_eq_true'] at this
      exact countNl_eq_zero_of_no_nl f (this f hf)
  rw [countNl_joinWith_nl _ hlines (by simp)]
  simp

/-- Witness for the amended C8 theorem: the concrete two-append ledger has
newline-free fields, and its CSV export has three lines. -/
theorem exportCsv_line_count_witness :
    (∀ l ∈ exLedger2.logs,
      ((csvFields l).all (fun f => !hasChar f '\n')) = true) ∧
    lineCount (exLedger2.exportCsv) = exLedger2.logs.length + 1 :=
  ⟨by decide, exportCsv_line_count exLedger2 (by decide)⟩

set_option maxRecDepth 4000 in
/-- Counterexample to C8 as stated: on the concrete ledger whose single
entry's action contains the comma delimiter, the export differs from the
RFC-4180-escaped export demanded by the claim — the field is joined in
unescaped. -/
theorem exportCsv_not_rfc_escaped :
    AuditLogService.exportCsv exLedgerComma ≠
      csvExportEscapedSpec exLedgerComma := by
  decide

/-- C10: a `limit` of 0 is falsy in the source's truthiness test, so it is
treated as an absent limit: the query returns the same result as with no
limit at all, and with no offset it returns the full filtered, sorted
result set. -/
theorem getLogs_limit_zero_as_absent (s : AuditLogService)
    (o : GetLogsOptions) :
    s.getLogs { o with limit := some 0 } = s.getLogs { o with limit := none } ∧
    s.getLogs { o with limit := some 0, offset := none } = filteredSorted s o := by
  constructor
  · rfl
  · have h : s.getLogs { o with limit := some 0, offset := none } =
        (filteredSorted s o).take (filteredSorted s o).length := rfl
    rw [h, List.take_length]

/-- Looking a key up right after setting it returns the stored record. -/
theorem mapGet_mapSet_self (mp : List (String × Rollback)) (k : String)
    (v : Rollback) : mapGet (mapSet mp k v) k = some v := by
  induction mp with
  | nil => simp [mapGet, mapSet, List.find?]
  | cons p rest ih =>
    by_cases h : p.1 = k
    · simp [mapGet, mapSet, h, List.find?]
    · simp only [mapSet]
      rw [if_neg h]
      simp only [mapGet, List.find?]
      rw [show (decide (p.1 = k)) = false from by simp [h]]
      exact ih

/-- C4: the rate gate compares the stored counter against the hourly cap,
and nothing ever prunes or resets the counter; once the counter has reached
the cap, `checkAndTriggerRollback` is suppressed for every later sample, at
every later time `now` — there is no sliding window, so the lockout is
permanent rather than expiring after an hour. -/
theorem rate_gate_suppresses_forever (s : RollbackService)
    (m : RollbackMetrics) (now : Nat) (newId : String)
    (h : s.config.maxRollbacksPerHour ≤ s.rollbackCountLastHour) :
    s.checkAndTriggerRollback m now newId = .ok (s, none) := by
  simp only [RollbackService.checkAndTriggerRollback]
  by_cases hc : ((now : ℚ) - (s.lastRollbackTime : ℚ)) / 1000 <
      s.config.cooldownSeconds
  · rw [if_pos hc]
  · rw [if_neg hc, if_pos h]

/-- Witness for the C4 bug theorem: a governor with hourly cap 2 and two
recorded rollbacks suppresses a qualifying sample two hours later
(7200000 ms after the rollbacks). -/
theorem rate_gate_suppresses_forever_witness :
    svcLocked.config.maxRollbacksPerHour ≤ svcLocked.rollbackCountLastHour ∧
    svcLocked.checkAndTriggerRollback metricsBoth 7200000 uuidC =
      .ok (svcLocked, none) :=
  ⟨by decide,
   rate_gate_suppresses_forever svcLocked metricsBoth 7200000 uuidC (by decide)⟩

/-- C6: with both gates open, metrics breaching the safety-violation
threshold produce a record whose reason is `safety_violation`, even when the
error-rate threshold is simultaneously breached — the trigger chain tests
safety first and acts on the first match. -/
theorem trigger_priority_safety_dominates (s : RollbackService)
    (m : RollbackMetrics) (now : Nat) (newId : String)
    (hcool : ¬ ((now : ℚ) - (s.lastRollbackTime : ℚ)) / 1000 <
      s.config.cooldownSeconds)
    (hrate : s.rollbackCountLastHour < s.config.maxRollbacksPerHour)
    (hsafe : s.config.safetyViolationThreshold < m.safetyViolations)
    (herr : s.config.errorRateThreshold < m.errorRate)
    (hid : isUuid newId = true) :
    (triggeredRecord (s.checkAndTriggerRollback m now newId)).map
      (fun r => r.reason) = some .safety_violation := by
  simp only [RollbackService.checkAndTriggerRollback]
  rw [if_neg hcool, if_neg (Nat.not_le.mpr hrate)]
  simp [triggerReasonFor, hsafe, RollbackService.initiateRollback,
    validateRollback, hid, triggeredRecord]

/-- Witness for the C6 theorem: the default configuration, a fresh governor,
metrics with one safety violation (threshold 0) and error rate 9/10
(threshold 1/20), sampled 7200 seconds after epoch. -/
theorem trigger_priority_safety_dominates_witness :
    isUuid uuidC = true ∧
    (triggeredRecord
      ((freshRollbackService defaultRollbackConfig).checkAndTriggerRollback
        metricsBoth 7200000 uuidC)).map (fun r => r.reason) =
      some .safety_violation :=
  ⟨by decide,
   trigger_priority_safety_dominates (freshRollbackService defaultRollbackConfig)
     metricsBoth 7200000 uuidC
     (by norm_num [freshRollbackService, defaultRollbackConfig])
     (by decide)
     (by norm_num [freshRollbackService, defaultRollbackConfig, metricsBoth])
     (by norm_num [freshRollbackService, defaultRollbackConfig, metricsBoth])
     (by decide)⟩

/-- C9: whatever trigger fires, the automated path always creates its record
from the never-reassigned empty `targetVersion` local and without a
`targetCommitId`; the empty string passes `RollbackSchema` (a plain
`z.string()`), so with both gates open and a matching trigger the record is
created successfully, with `trigger = automated` and status `pending`. -/
theorem automated_record_has_empty_target (s : RollbackService)
    (m : RollbackMetrics) (now : Nat) (newId : String)
    (hcool : ¬ ((now : ℚ) - (s.lastRollbackTime : ℚ)) / 1000 <
      s.config.cooldownSeconds)
    (hrate : s.rollbackCountLastHour < s.config.maxRollbacksPerHour)
    (htrig : (triggerReasonFor s.config m).isSome = true)
    (hid : isUuid newId = true) :
    (triggeredRecord (s.checkAndTriggerRollback m now newId)).map
      (fun r => (r.targetVersion, r.targetCommitId, r.trigger, r.status)) =
      some ("", none, .automated, .pending) := by
  simp only [RollbackService.checkAndTriggerRollback]
  rw [if_neg hcool, if_neg (Nat.not_le.mpr hrate)]
  cases htr : triggerReasonFor s.config m with
  | none => rw [htr] at htrig; exact absurd htrig (by simp)
  | some reason =>
    simp [RollbackService.initiateRollback, validateRollback, hid,
      triggeredRecord]

/-- Witness for the C9 theorem: the concrete triggering scenario of the C6
witness also yields the empty target version and no commit id. -/
theorem automated_record_has_empty_target_witness :
    isUuid uuidC = true ∧
    (triggeredRecord
      ((freshRollbackService defaultRollbackConfig).checkAndTriggerRollback
        metricsBoth 7200000 uuidC)).map
      (fun r => (r.targetVersion, r.targetCommitId, r.trigger, r.status)) =
      some ("", none, .automated, .pending) :=
  ⟨by decide,
   automated_record_has_empty_target (freshRollbackService defaultRollbackConfig)
     metricsBoth 7200000 uuidC
     (by norm_num [freshRollbackService, defaultRollbackConfig])
     (by decide)
     (by norm_num [triggerReasonFor, freshRollbackService,
       defaultRollbackConfig, metricsBoth])
     (by decide)⟩

/-- C7: `executeRollback` and `cancelRollback` both reject an unknown id
with the not-found error, and both reject a record that is not `pending`
(`in_progress`, `completed` or `failed`) with the illegal-transition error;
in every rejecting case the result is an error with no successor state, so
the service and the record are unchanged. -/
theorem execute_cancel_state_guards (s : RollbackService) (id cb : String)
    (now : Nat) :
    (mapGet s.rollbacks id = none →
      s.executeRollback id = .error (.notFound id) ∧
      s.cancelRollback id cb now = .error (.notFound id)) ∧
    (∀ r, mapGet s.rollbacks id = some r → r.status ≠ .pending →
      s.executeRollback id =
        .error (.invalidState "Rollback is not in pending status") ∧
      s.cancelRollback id cb now =
        .error (.invalidState "Only pending rollbacks can be cancelled")) := by
  constructor
  · intro hg
    exact ⟨by simp [RollbackService.executeRollback, hg],
           by simp [RollbackService.cancelRollback, hg]⟩
  · intro r hg hnp
    exact ⟨by simp [RollbackService.executeRollback, hg, hnp],
           by simp [RollbackService.cancelRollback, hg, hnp]⟩

/-- Witness for the C7 theorem: on the concrete fixture governor, an unknown
id is rejected with not-found by `executeRollback`, and cancelling the
`in_progress` record is rejected with the illegal-transition error. -/
theorem execute_cancel_state_guards_witness :
    svcRecords.executeRollback uuidC = .error (.notFound uuidC) ∧
    svcRecords.cancelRollback uuidB "bob" 5 =
      .error (.invalidState "Only pending rollbacks can be cancelled") :=
  ⟨((execute_cancel_state_guards svcRecords uuidC "bob" 5).1 (by decide)).1,
   ((execute_cancel_state_guards svcRecords uuidB "bob" 5).2 rbInProgress
     (by decide) (by decide)).2⟩

/-- Counterexample to C5 as stated: on the concrete fixture, `uuidA` holds a
record in the terminal `failed` state, yet `completeRollback` succeeds and
moves it to `completed` — a governor operation changes the status of a
terminal record. -/
theorem completeRollback_resurrects_failed_record :
    (mapGet svcRecords.rollbacks uuidA).map (fun r => r.status) =
      some .failed ∧
    (resultRecord (svcRecords.completeRollback uuidA [] 99)).map
      (fun r => r.status) = some .completed := by
  constructor <;> decide

/-- C5 (amended): terminal states are only partially absorbing.
`executeRollback` and `cancelRollback` do reject a `completed` or `failed`
record with the illegal-transition error and leave it unchanged, and no
operation ever writes the `pending` status (execution writes `in_progress`,
completion writes `completed`, failure and cancellation write `failed`);
but `completeRollback` and `failRollback` perform no status check at all,
so they overwrite a terminal status — `failed` records can be moved to
`completed` and `completed` records to `failed`. -/
theorem terminal_status_partially_absorbing (s : RollbackService)
    (id cb err : String) (arts : List String) (now : Nat) (r : Rollback)
    (hget : mapGet s.rollbacks id = some r)
    (hterm : r.status = .completed ∨ r.status = .failed) :
    s.executeRollback id =
      .error (.invalidState "Rollback is not in pending status") ∧
    s.cancelRollback id cb now =
      .error (.invalidState "Only pending rollbacks can be cancelled") ∧
    (resultRecord (s.completeRollback id arts now)).map (fun x => x.status) =
      some .completed ∧
    (resultRecord (s.failRollback id err now)).map (fun x => x.status) =
      some .failed ∧
    (∀ id2 s2 r2, s.executeRollback id2 = .ok (s2, r2) →
      r2.status = .in_progress) ∧
    (∀ id2 s2 r2, s.completeRollback id2 arts now = .ok (s2, r2) →
      r2.status = .completed) ∧
    (∀ id2 s2 r2, s.failRollback id2 err now = .ok (s2, r2) →
      r2.status = .failed) ∧
    (∀ id2 s2, s.cancelRollback id2 cb now = .ok s2 →
      (mapGet s2.rollbacks id2).map (fun x => x.status) = some .failed) := by
  have hnp : r.status ≠ .pending := by
    rcases hterm with h | h <;> rw [h] <;> simp
  refine ⟨by simp [RollbackService.executeRollback, hget, hnp],
          by simp [RollbackService.cancelRollback, hget, hnp],
          by simp [RollbackService.completeRollback, hget, resultRecord],
          by simp [RollbackService.failRollback, hget, resultRecord],
          ?_, ?_, ?_, ?_⟩
  · intro id2 s2 r2 hok
    revert hok
    cases hg : mapGet s.rollbacks id2 with
    | none => intro hok; exact absurd hok (by simp [RollbackService.executeRollback, hg])
    | some r0 =>
      simp only [RollbackService.executeRollback, hg]
      split
      · intro hok; exact absurd hok (by simp)
      · intro hok
        simp only [Except.ok.injEq, Prod.mk.injEq] at hok
        rw [← hok.2]
  · intro id2 s2 r2 hok
    revert hok
    cases hg : mapGet s.rollbacks id2 with
    | none => intro hok; exact absurd hok (by simp [RollbackService.completeRollback, hg])
    | some r0 =>
      simp only [RollbackService.completeRollback, hg]
      intro hok
      simp only [Except.ok.injEq, Prod.mk.injEq] at hok
      rw [← hok.2]
  · intro id2 s2 r2 hok
    revert hok
    cases hg : mapGet s.rollbacks id2 with
    | none => intro hok; exact absurd hok (by simp [RollbackService.failRollback, hg])
    | some r0 =>
      simp only [RollbackService.failRollback, hg]
      intro hok
      simp only [Except.ok.injEq, Prod.mk.injEq] at hok
      rw [← hok.2]
  · intro id2 s2 hok
    revert hok
    cases hg : mapGet s.rollbacks id2 with
    | none => intro hok; exact absurd hok (by simp [RollbackService.cancelRollback, hg])
    | some r0 =>
      simp only [RollbackService.cancelRollback, hg]
      split
      · intro hok; exact absurd hok (by simp)
      · intro hok
        simp only [Except.ok.injEq] at hok
        rw [← hok]
        simp [mapGet_mapSet_self]

/-- Witness for the amended C5 theorem, at the concrete fixture's terminal
`failed` record. -/
theorem terminal_status_partially_absorbing_witness :
    mapGet svcRecords.rollbacks uuidA = some rbFailed ∧
    (svcRecords.executeRollback uuidA =
      .error (.invalidState "Rollback is not in pending status") ∧
    svcRecords.cancelRollback uuidA "bob" 99 =
      .error (.invalidState "Only pending rollbacks can be cancelled") ∧
    (resultRecord (svcRecords.completeRollback uuidA [] 99)).map
      (fun x => x.status) = some .completed ∧
    (resultRecord (svcRecords.failRollback uuidA "boom2" 99)).map
      (fun x => x.status) = some .failed ∧
    (∀ id2 s2 r2, svcRecords.executeRollback id2 = .ok (s2, r2) →
      r2.status = .in_progress) ∧
    (∀ id2 s2 r2, svcRecords.completeRollback id2 [] 99 = .ok (s2, r2) →
      r2.status = .completed) ∧
    (∀ id2 s2 r2, svcRecords.failRollback id2 "boom2" 99 = .ok (s2, r2) →
      r2.status = .failed) ∧
    (∀ id2 s2, svcRecords.cancelRollback id2 "bob" 99 = .ok s2 →
      (mapGet s2.rollbacks id2).map (fun x => x.status) = some .failed)) :=
  ⟨by decide,
   terminal_status_partially_absorbing svcRecords uuidA "bob" "boom2" [] 99
     rbFailed (by decide) (Or.inr rfl)⟩
